import Mathlib

/-!
Shallow embedding of the segment-aggregation core of road-detector-go.

Sources embedded here:
* geo.Calculator (InterpolateCoordinates, CalculateSegments, CalculateOverallStats)
* service.AnalyzerService.processZipArchive (the pure assembly step after the
  analysis_results.json of the bundle has been parsed)
* service.AnalyzerService.processGeographicAnalysis (the call-site wiring of
  InterpolateCoordinates and CalculateSegments)

Modelling conventions:
* Go float64 arithmetic is modelled as exact rational arithmetic over ℚ.
* geo.Calculator.DistanceMeters is the haversine formula, built from sin, cos,
  atan2 and sqrt; those are transcendental and have no computable ℚ embedding,
  so every function that calls DistanceMeters is parametrised over an abstract
  metric `dist : Coordinates → Coordinates → ℚ`.  Concrete witnesses
  instantiate `dist` with the computable metric `flatDist` below, which shares
  the properties of the haversine distance that the code relies on
  (nonnegativity and vanishing on the diagonal).
* Go runtime panics are modelled by Option: indexing a slice outside its
  bounds, or make with a negative length, yields none.
* Go int and int32 values are modelled as unbounded ℤ (segment counts large
  enough to overflow int32 would already exceed the slice-allocation limits of Go).
* Go int(x) conversion from float64 truncates toward zero (goTrunc below);
  math.Round rounds half away from zero (goRound below).
-/

namespace RoadDetector

/-- models.Coordinates: a lat/lon pair (pkg/models/road_marking.go). -/
structure Coordinates where
  lat : ℚ
  lon : ℚ
deriving DecidableEq

/-- models.SegmentInfo (pkg/models/road_marking.go); the service-side
SegmentInfo (internal/service/types.go) has the same fields. -/
structure SegmentInfo where
  segmentId : ℤ
  framesCount : ℤ
  coveragePercentage : ℚ
  hasData : Bool
  startCoordinate : Coordinates
  endCoordinate : Coordinates
deriving DecidableEq

/-- models.OverallStats (pkg/models/road_marking.go). -/
structure OverallStats where
  totalFrames : ℤ
  totalDistanceMeters : ℚ
  segmentLengthMeters : ℤ
  totalSegments : ℤ
  segmentsWithData : ℤ
  averageCoverage : ℚ
deriving DecidableEq

/-- Go int(x) conversion of a float64: truncation toward zero. -/
def goTrunc (q : ℚ) : ℤ := if 0 ≤ q then ⌊q⌋ else ⌈q⌉

/-- Go math.Round: rounding to the nearest integer, halves away from zero. -/
def goRound (q : ℚ) : ℚ := if 0 ≤ q then (⌊q + 1/2⌋ : ℚ) else (⌈q - 1/2⌉ : ℚ)

/-- The linear-interpolation formula the Go code writes inline at each use:
start + (end - start) * ratio, applied to both components. -/
def lerp (s e : Coordinates) (ratio : ℚ) : Coordinates :=
  ⟨s.lat + (e.lat - s.lat) * ratio, s.lon + (e.lon - s.lon) * ratio⟩

/-- A computable stand-in metric used to instantiate the abstract `dist`
parameter in concrete witnesses (see the module docstring). -/
def flatDist (p q : Coordinates) : ℚ := |q.lat - p.lat| + |q.lon - p.lon|

/-- geo.Calculator.InterpolateCoordinates: numPoints <= 0 gives [],
numPoints == 1 gives [start], otherwise numPoints points at ratios
i/(numPoints-1). -/
def interpolateCoordinates (start endP : Coordinates) (numPoints : ℤ) : List Coordinates :=
  if numPoints ≤ 0 then []
  else if numPoints = 1 then [start]
  else (List.range numPoints.toNat).map fun i : ℕ => lerp start endP ((i : ℚ) / ((numPoints : ℚ) - 1))

/-- The frame-to-segment index computed inside the first loop of CalculateSegments:
segmentIdx := int(distFromStart / float64(segmentLengthM)), then clamped to
numSegments - 1 when segmentIdx >= numSegments. -/
def clampIdx (dist : Coordinates → Coordinates → ℚ) (start : Coordinates)
    (segmentLengthM numSegments : ℤ) (c : Coordinates) : ℤ :=
  let segmentIdx := goTrunc (dist start c / (segmentLengthM : ℚ))
  if numSegments ≤ segmentIdx then numSegments - 1 else segmentIdx

/-- The first loop of CalculateSegments: for each frame coordinate, read
frameResults[i] and append it to segmentFrames[segmentIdx].  Either index
being out of bounds is a Go panic, modelled as none.  The loop walks
frameCoords and frameResults in lockstep, which is exactly the Go loop
`for i, coord := range frameCoords` with the read `frameResults[i]`. -/
def assignLoop (dist : Coordinates → Coordinates → ℚ) (start : Coordinates)
    (segmentLengthM numSegments : ℤ) :
    List Coordinates → List ℤ → List (List ℤ) → Option (List (List ℤ))
  | [], _, buckets => some buckets
  | _ :: _, [], _ => none
  | c :: cs, r :: rs, buckets =>
      let idx := clampIdx dist start segmentLengthM numSegments c
      if 0 ≤ idx ∧ idx.toNat < buckets.length then
        assignLoop dist start segmentLengthM numSegments cs rs
          (buckets.set idx.toNat (buckets.getD idx.toNat [] ++ [r]))
      else none

/-- The body of the second loop of CalculateSegments, building segments[i] from the
bucket segmentFrames[i].  In the empty-bucket branch the Go code only zeroes
FramesCount / CoveragePercentage / HasData, so StartCoordinate and
EndCoordinate keep the zero value of make([]models.SegmentInfo, n). -/
def buildSegment (start endP : Coordinates) (segmentLengthM : ℤ) (totalDistance : ℚ)
    (i : ℕ) (bucket : List ℤ) : SegmentInfo :=
  if 0 < bucket.length then
    let totalMarkings := bucket.sum
    let coverage : ℚ := (totalMarkings : ℚ) / (bucket.length : ℚ) * 100
    let segmentStart : ℚ := (i : ℚ) * (segmentLengthM : ℚ)
    let segmentEnd : ℚ := min (((i : ℚ) + 1) * (segmentLengthM : ℚ)) totalDistance
    { segmentId := (i : ℤ) + 1
      framesCount := (bucket.length : ℤ)
      coveragePercentage := goRound (coverage * 10) / 10
      hasData := true
      startCoordinate := lerp start endP (segmentStart / totalDistance)
      endCoordinate := lerp start endP (segmentEnd / totalDistance) }
  else
    { segmentId := (i : ℤ) + 1
      framesCount := 0
      coveragePercentage := 0
      hasData := false
      startCoordinate := ⟨0, 0⟩
      endCoordinate := ⟨0, 0⟩ }

/-- The second loop of CalculateSegments: `for i := 0; i < numSegments; i++`
over the buckets, carried here as an index-threading recursion. -/
def buildLoop (start endP : Coordinates) (segmentLengthM : ℤ) (totalDistance : ℚ) :
    ℕ → List (List ℤ) → List SegmentInfo
  | _, [] => []
  | i, b :: bs =>
      buildSegment start endP segmentLengthM totalDistance i b ::
        buildLoop start endP segmentLengthM totalDistance (i + 1) bs

/-- geo.Calculator.CalculateSegments.  numSegments := int(math.Ceil(
totalDistance / float64(segmentLengthM))); make with a negative length would
panic (none); then the two loops above. -/
def calculateSegments (dist : Coordinates → Coordinates → ℚ) (start endP : Coordinates)
    (segmentLengthM : ℤ) (frameCoords : List Coordinates) (frameResults : List ℤ) :
    Option (List SegmentInfo) :=
  let totalDistance := dist start endP
  let numSegments : ℤ := ⌈totalDistance / (segmentLengthM : ℚ)⌉
  if numSegments < 0 then none
  else
    match assignLoop dist start segmentLengthM numSegments frameCoords frameResults
        (List.replicate numSegments.toNat []) with
    | none => none
    | some buckets => some (buildLoop start endP segmentLengthM totalDistance 0 buckets)

/-- geo.Calculator.CalculateOverallStats: one pass collecting the coverages of
segments with HasData while counting them, then the rounded mean (0 when no
segment has data), with the stated roundings. -/
def calculateOverallStats (segments : List SegmentInfo) (totalFrames : ℤ)
    (totalDistance : ℚ) (segmentLength : ℤ) : OverallStats :=
  let acc := segments.foldl
    (fun (acc : ℤ × List ℚ) s =>
      if s.hasData then (acc.1 + 1, acc.2 ++ [s.coveragePercentage]) else acc)
    (0, [])
  let averageCoverage : ℚ :=
    if 0 < acc.2.length then goRound ((acc.2.sum / (acc.2.length : ℚ)) * 10) / 10 else 0
  { totalFrames := totalFrames
    totalDistanceMeters := goRound (totalDistance * 100) / 100
    segmentLengthMeters := segmentLength
    totalSegments := (segments.length : ℤ)
    segmentsWithData := acc.1
    averageCoverage := averageCoverage }

/-- service.AnalyzerService.processGeographicAnalysis (the pure part): the
number of frame coordinates interpolated is exactly len(pythonResp.FrameResults),
and those two lists are handed to CalculateSegments, then to
CalculateOverallStats. -/
def processGeographicAnalysis (dist : Coordinates → Coordinates → ℚ)
    (startPoint endPoint : Coordinates) (segmentLength : ℤ) (frameResults : List ℤ) :
    Option (List SegmentInfo × OverallStats) :=
  let numFrames := frameResults.length
  let frameCoords := interpolateCoordinates startPoint endPoint (numFrames : ℤ)
  let totalDistance := dist startPoint endPoint
  match calculateSegments dist startPoint endPoint segmentLength frameCoords frameResults with
  | none => none
  | some segments =>
      some (segments, calculateOverallStats segments (numFrames : ℤ) totalDistance segmentLength)

/-- One entry of the segments array parsed from analysis_results.json inside
processZipArchive (internal/service/analyzer.go). -/
structure PySegment where
  segmentId : ℤ
  framesCount : ℤ
  coveragePercentage : ℚ
  hasData : Bool
deriving DecidableEq

/-- The overall_stats object parsed from analysis_results.json inside
processZipArchive (segment_length_meters is a Go int there). -/
structure PyOverallStats where
  totalFrames : ℤ
  totalDistanceMeters : ℚ
  segmentLengthMeters : ℤ
  totalSegments : ℤ
  segmentsWithData : ℤ
  averageCoverage : ℚ
deriving DecidableEq

/-- The parsed analysis_results.json document (pythonResults in
processZipArchive).  The coordinates block is parsed but never read by the
assembly code below; it is kept for fidelity. -/
structure PyResults where
  status : String
  overallStats : PyOverallStats
  segments : List PySegment
  startCoord : Coordinates
  endCoord : Coordinates
deriving DecidableEq

/-- service.OverallStats (internal/service/types.go): same as
models.OverallStats except SegmentLengthMeters is a float64. -/
structure ServiceOverallStats where
  totalFrames : ℤ
  totalDistanceMeters : ℚ
  segmentLengthMeters : ℚ
  totalSegments : ℤ
  segmentsWithData : ℤ
  averageCoverage : ℚ
deriving DecidableEq

/-- service.AnalysisResult (internal/service/types.go). -/
structure AnalysisResult where
  startPoint : Coordinates
  endPoint : Coordinates
  segmentLength : ℚ
  segments : List SegmentInfo
  overallStats : ServiceOverallStats
deriving DecidableEq

/-- The body of the segment loop of processZipArchive at index i of n: progress :=
i/n (overridden to 0.5 when n == 1), endProgress := (i+1)/n (overridden to 1.0
on the last segment); statistics fields are passed through unchanged. -/
def zipSegmentBuild (startLat startLon endLat endLon : ℚ) (n i : ℕ)
    (seg : PySegment) : SegmentInfo :=
  let progress : ℚ := if n = 1 then 1/2 else (i : ℚ) / (n : ℚ)
  let endProgress : ℚ := if i = n - 1 then 1 else ((i : ℚ) + 1) / (n : ℚ)
  { segmentId := seg.segmentId
    framesCount := seg.framesCount
    coveragePercentage := seg.coveragePercentage
    hasData := seg.hasData
    startCoordinate :=
      ⟨startLat + (endLat - startLat) * progress, startLon + (endLon - startLon) * progress⟩
    endCoordinate :=
      ⟨startLat + (endLat - startLat) * endProgress,
        startLon + (endLon - startLon) * endProgress⟩ }

/-- The coordinate-rederiving loop of processZipArchive, one zipSegmentBuild
per parsed segment, with the running index threaded through. -/
def zipSegmentsLoop (startLat startLon endLat endLon : ℚ) (n : ℕ) :
    ℕ → List PySegment → List SegmentInfo
  | _, [] => []
  | i, seg :: rest =>
      zipSegmentBuild startLat startLon endLat endLon n i seg ::
        zipSegmentsLoop startLat startLon endLat endLon n (i + 1) rest

/-- service.AnalyzerService.processZipArchive, pure assembly step: given the
parsed analysis_results.json and the request parameters, rebuild the segments
with rederived coordinates and pass the upstream overall_stats through —
except SegmentLengthMeters, which is set from the segmentLength argument of
the request. -/
def processZipArchive (startLat startLon endLat endLon segmentLength : ℚ)
    (py : PyResults) : AnalysisResult :=
  { startPoint := ⟨startLat, startLon⟩
    endPoint := ⟨endLat, endLon⟩
    segmentLength := segmentLength
    segments := zipSegmentsLoop startLat startLon endLat endLon py.segments.length 0 py.segments
    overallStats :=
      { totalFrames := py.overallStats.totalFrames
        totalDistanceMeters := py.overallStats.totalDistanceMeters
        segmentLengthMeters := segmentLength
        totalSegments := py.overallStats.totalSegments
        segmentsWithData := py.overallStats.segmentsWithData
        averageCoverage := py.overallStats.averageCoverage } }

end RoadDetector

namespace RoadDetector

/-- The contents of the bucket segmentFrames[j] after the first loop of
CalculateSegments: the results of exactly those frames whose clamped segment
index is j, in frame order. -/
def segmentBucket (dist : Coordinates → Coordinates → ℚ) (start : Coordinates)
    (segmentLengthM numSegments : ℤ) (cs : List Coordinates) (rs : List ℤ) (j : ℕ) : List ℤ :=
  ((cs.zip rs).filter fun p =>
    clampIdx dist start segmentLengthM numSegments p.1 = (j : ℤ)).map Prod.snd

theorem getD_set_self {α : Type} (l : List α) (k : ℕ) (v d : α) (h : k < l.length) :
    (l.set k v).getD k d = v := by
  rw [List.getD_eq_getElem _ _ (by simpa using h)]
  simp [List.getElem_set]

theorem getD_set_ne {α : Type} (l : List α) (j k : ℕ) (v d : α) (h : k ≠ j) :
    (l.set k v).getD j d = l.getD j d := by
  by_cases hj : j < l.length
  · rw [List.getD_eq_getElem _ _ (by simpa using hj), List.getD_eq_getElem _ _ hj]
    exact List.getElem_set_ne h _
  · rw [List.getD_eq_default _ _ (by simpa using Nat.le_of_not_lt hj),
      List.getD_eq_default _ _ (Nat.le_of_not_lt hj)]

theorem segmentBucket_cons (dist : Coordinates → Coordinates → ℚ) (start : Coordinates)
    (L n : ℤ) (c : Coordinates) (cs : List Coordinates) (r : ℤ) (rs : List ℤ) (j : ℕ) :
    segmentBucket dist start L n (c :: cs) (r :: rs) j =
      (if clampIdx dist start L n c = (j : ℤ) then [r] else []) ++
        segmentBucket dist start L n cs rs j := by
  simp only [segmentBucket, List.zip_cons_cons, List.filter_cons]
  split <;> simp_all

theorem segmentBucket_nil (dist : Coordinates → Coordinates → ℚ) (start : Coordinates)
    (L n : ℤ) (rs : List ℤ) (j : ℕ) :
    segmentBucket dist start L n [] rs j = [] := by
  simp [segmentBucket]

theorem assignLoop_length (dist : Coordinates → Coordinates → ℚ) (start : Coordinates)
    (L n : ℤ) : ∀ (cs : List Coordinates) (rs : List ℤ) (buckets out : List (List ℤ)),
    assignLoop dist start L n cs rs buckets = some out → out.length = buckets.length := by
  intro cs
  induction cs with
  | nil =>
    intro rs buckets out h
    simp only [assignLoop, Option.some.injEq] at h
    rw [← h]
  | cons c cs ih =>
    intro rs buckets out h
    cases rs with
    | nil => simp [assignLoop] at h
    | cons r rs =>
      simp only [assignLoop] at h
      split at h
      · rw [ih rs _ out h, List.length_set]
      · exact absurd h (by simp)

theorem assignLoop_getD (dist : Coordinates → Coordinates → ℚ) (start : Coordinates)
    (L n : ℤ) : ∀ (cs : List Coordinates) (rs : List ℤ) (buckets out : List (List ℤ)),
    assignLoop dist start L n cs rs buckets = some out →
    ∀ j : ℕ, out.getD j [] = buckets.getD j [] ++ segmentBucket dist start L n cs rs j := by
  intro cs
  induction cs with
  | nil =>
    intro rs buckets out h j
    simp only [assignLoop, Option.some.injEq] at h
    rw [← h, segmentBucket_nil, List.append_nil]
  | cons c cs ih =>
    intro rs buckets out h j
    cases rs with
    | nil => simp [assignLoop] at h
    | cons r rs =>
      simp only [assignLoop] at h
      split at h
      case isTrue hcond =>
        rw [ih rs _ out h j, segmentBucket_cons]
        by_cases hc : clampIdx dist start L n c = (j : ℤ)
        · have hk : (clampIdx dist start L n c).toNat = j := by
            rw [hc]; exact Int.toNat_natCast j
          rw [hk] at hcond ⊢
          rw [getD_set_self _ _ _ _ hcond.2, if_pos hc, List.append_assoc]
        · have hk : (clampIdx dist start L n c).toNat ≠ j := by
            intro hkeq
            exact hc (by rw [← hkeq, Int.toNat_of_nonneg hcond.1])
          rw [getD_set_ne _ _ _ _ _ hk, if_neg hc, List.nil_append]
      case isFalse => exact absurd h (by simp)

theorem assignLoop_some_of_bounds (dist : Coordinates → Coordinates → ℚ) (start : Coordinates)
    (L n : ℤ) (hn : 0 < n) (hL : 0 < L) (hd : ∀ c : Coordinates, 0 ≤ dist start c) :
    ∀ (cs : List Coordinates) (rs : List ℤ) (buckets : List (List ℤ)),
    cs.length ≤ rs.length → buckets.length = n.toNat →
    ∃ out, assignLoop dist start L n cs rs buckets = some out := by
  intro cs
  induction cs with
  | nil => intro rs buckets _ _; exact ⟨buckets, rfl⟩
  | cons c cs ih =>
    intro rs buckets hlen hbl
    cases rs with
    | nil => simp at hlen
    | cons r rs =>
      have hq : 0 ≤ dist start c / (L : ℚ) := by
        apply div_nonneg (hd c)
        exact_mod_cast hL.le
      have hidx0 : 0 ≤ clampIdx dist start L n c := by
        simp only [clampIdx, goTrunc]
        rw [if_pos hq]
        split
        · omega
        · exact Int.floor_nonneg.mpr hq
      have hidxlt : clampIdx dist start L n c < n := by
        simp only [clampIdx, goTrunc]
        rw [if_pos hq]
        split
        · omega
        · omega
      have hcond : 0 ≤ clampIdx dist start L n c ∧
          (clampIdx dist start L n c).toNat < buckets.length := by
        refine ⟨hidx0, ?_⟩
        rw [hbl]
        omega
      simp only [assignLoop, if_pos hcond]
      exact ih rs _ (by simpa using Nat.le_of_succ_le_succ hlen)
        (by rw [List.length_set, hbl])

theorem assignLoop_length_le (dist : Coordinates → Coordinates → ℚ) (start : Coordinates)
    (L n : ℤ) : ∀ (cs : List Coordinates) (rs : List ℤ) (buckets out : List (List ℤ)),
    assignLoop dist start L n cs rs buckets = some out → cs.length ≤ rs.length := by
  intro cs
  induction cs with
  | nil => intro rs buckets out _; simp
  | cons c cs ih =>
    intro rs buckets out h
    cases rs with
    | nil => simp [assignLoop] at h
    | cons r rs =>
      simp only [assignLoop] at h
      split at h
      · simpa using ih rs _ out h
      · exact absurd h (by simp)

theorem buildSegment_framesCount (start endP : Coordinates) (L : ℤ) (td : ℚ)
    (i : ℕ) (bucket : List ℤ) :
    (buildSegment start endP L td i bucket).framesCount = (bucket.length : ℤ) := by
  unfold buildSegment
  split <;> simp_all

theorem buildSegment_segmentId (start endP : Coordinates) (L : ℤ) (td : ℚ)
    (i : ℕ) (bucket : List ℤ) :
    (buildSegment start endP L td i bucket).segmentId = (i : ℤ) + 1 := by
  unfold buildSegment
  split <;> rfl

theorem buildLoop_length (start endP : Coordinates) (L : ℤ) (td : ℚ) :
    ∀ (i0 : ℕ) (bs : List (List ℤ)),
    (buildLoop start endP L td i0 bs).length = bs.length := by
  intro i0 bs
  induction bs generalizing i0 with
  | nil => rfl
  | cons b bs ih => simp [buildLoop, ih]

theorem buildLoop_get (start endP : Coordinates) (L : ℤ) (td : ℚ) :
    ∀ (bs : List (List ℤ)) (i0 j : ℕ) (hj : j < bs.length)
      (hj2 : j < (buildLoop start endP L td i0 bs).length),
    (buildLoop start endP L td i0 bs).get ⟨j, hj2⟩ =
      buildSegment start endP L td (i0 + j) (bs.get ⟨j, hj⟩) := by
  intro bs
  induction bs with
  | nil => intro i0 j hj _; exact absurd hj (by simp)
  | cons b bs ih =>
    intro i0 j hj hj2
    cases j with
    | zero => rfl
    | succ j =>
      have hjs : j < bs.length := by simpa using hj
      have hjs2 : j < (buildLoop start endP L td (i0 + 1) bs).length := by
        rw [buildLoop_length]; exact hjs
      have hstep := ih (i0 + 1) j hjs hjs2
      simp only [buildLoop, List.get_cons_succ]
      rw [hstep]
      congr 1
      omega

theorem sum_framesCount_buildLoop (start endP : Coordinates) (L : ℤ) (td : ℚ) :
    ∀ (i0 : ℕ) (bs : List (List ℤ)),
    ((buildLoop start endP L td i0 bs).map (fun s => s.framesCount)).sum =
      (bs.map (fun b => (b.length : ℤ))).sum := by
  intro i0 bs
  induction bs generalizing i0 with
  | nil => rfl
  | cons b bs ih =>
    simp only [buildLoop, List.map_cons, List.sum_cons, ih, buildSegment_framesCount]

theorem sum_length_set (l : List (List ℤ)) :
    ∀ (k : ℕ) (v : List ℤ), k < l.length →
    ((l.set k v).map (fun b => b.length)).sum + (l.getD k []).length =
      (l.map (fun b => b.length)).sum + v.length := by
  induction l with
  | nil => intro k v h; exact absurd h (by simp)
  | cons b bs ih =>
    intro k v h
    cases k with
    | zero => simp [List.set]; omega
    | succ k =>
      have hk : k < bs.length := by simpa using h
      have hstep := ih k v hk
      simp only [List.set, List.map_cons, List.sum_cons, List.getD_cons_succ]
      omega

theorem assignLoop_sum (dist : Coordinates → Coordinates → ℚ) (start : Coordinates)
    (L n : ℤ) : ∀ (cs : List Coordinates) (rs : List ℤ) (buckets out : List (List ℤ)),
    assignLoop dist start L n cs rs buckets = some out →
    (out.map (fun b => b.length)).sum = (buckets.map (fun b => b.length)).sum + cs.length := by
  intro cs
  induction cs with
  | nil =>
    intro rs buckets out h
    simp only [assignLoop, Option.some.injEq] at h
    rw [← h]
    simp
  | cons c cs ih =>
    intro rs buckets out h
    cases rs with
    | nil => simp [assignLoop] at h
    | cons r rs =>
      simp only [assignLoop] at h
      split at h
      case isTrue hcond =>
        have hstep := sum_length_set buckets (clampIdx dist start L n c).toNat
          (buckets.getD (clampIdx dist start L n c).toNat [] ++ [r]) hcond.2
        have hrec := ih rs _ out h
        rw [hrec]
        have hlen2 : (buckets.getD (clampIdx dist start L n c).toNat [] ++ [r]).length =
            (buckets.getD (clampIdx dist start L n c).toNat []).length + 1 := by simp
        rw [hlen2] at hstep
        simp only [List.length_cons]
        omega
      case isFalse => exact absurd h (by simp)

end RoadDetector

namespace RoadDetector

theorem interpolateCoordinates_length (s e : Coordinates) (k : ℤ) :
    (interpolateCoordinates s e k).length = k.toNat := by
  unfold interpolateCoordinates
  split
  · simp; omega
  · split
    · simp_all
    · rw [List.length_map, List.length_range]

theorem clampIdx_eq_min (dist : Coordinates → Coordinates → ℚ) (start : Coordinates)
    (L n : ℤ) (c : Coordinates) (hdc : 0 ≤ dist start c) (hL : 0 < L) :
    clampIdx dist start L n c = min ⌊dist start c / (L : ℚ)⌋ (n - 1) := by
  have hq : 0 ≤ dist start c / (L : ℚ) := div_nonneg hdc (by exact_mod_cast hL.le)
  simp only [clampIdx, goTrunc]
  rw [if_pos hq]
  rcases le_or_lt n ⌊dist start c / (L : ℚ)⌋ with hle | hlt
  · rw [if_pos hle]
    omega
  · rw [if_neg (not_le.mpr hlt)]
    omega

theorem getD_replicate (m j : ℕ) : (List.replicate m ([] : List ℤ)).getD j [] = [] := by
  by_cases h : j < m
  · rw [List.getD_eq_getElem _ _ (by simpa using h)]
    simp
  · exact List.getD_eq_default _ _ (by simpa using Nat.le_of_not_lt h)

theorem zip_filter_fst_length {α β : Type} (q : α → Bool) :
    ∀ (cs : List α) (rs : List β), cs.length ≤ rs.length →
    ((cs.zip rs).filter fun p => q p.1).length = (cs.filter q).length := by
  intro cs
  induction cs with
  | nil => intro rs _; simp
  | cons c cs ih =>
    intro rs hlen
    cases rs with
    | nil => simp at hlen
    | cons r rs =>
      have hrec := ih rs (by simpa using Nat.le_of_succ_le_succ hlen)
      simp only [List.zip_cons_cons, List.filter_cons]
      split <;> simp [hrec]

theorem sum_eq_count_one : ∀ l : List ℤ, (∀ x ∈ l, x = 0 ∨ x = 1) →
    l.sum = (l.count 1 : ℤ) := by
  intro l
  induction l with
  | nil => intro _; rfl
  | cons x l ih =>
    intro hbin
    have hx := hbin x (by simp)
    have hrec := ih fun y hy => hbin y (by simp [hy])
    rcases hx with h0 | h1
    · subst h0
      rw [List.sum_cons, hrec, List.count_cons]
      norm_num
    · subst h1
      rw [List.sum_cons, hrec, List.count_cons]
      simp
      omega

theorem segmentBucket_subset (dist : Coordinates → Coordinates → ℚ) (start : Coordinates)
    (L n : ℤ) (cs : List Coordinates) (rs : List ℤ) (j : ℕ) :
    ∀ r ∈ segmentBucket dist start L n cs rs j, r ∈ rs := by
  intro r hr
  obtain ⟨p, hp, rfl⟩ := List.mem_map.mp hr
  exact (List.of_mem_zip (List.mem_filter.mp hp).1).2

theorem sum_map_length_intCast (l : List (List ℤ)) :
    (l.map (fun b => (b.length : ℤ))).sum = Nat.cast ((l.map (fun b => b.length)).sum) := by
  induction l with
  | nil => simp
  | cons b bs ih => simp [ih]

theorem calculateSegments_success (dist : Coordinates → Coordinates → ℚ)
    (start endP : Coordinates) (L : ℤ) (cs : List Coordinates) (rs : List ℤ)
    (hd : ∀ c : Coordinates, 0 ≤ dist start c) (hpos : 0 < dist start endP) (hL : 0 < L)
    (hlen : cs.length ≤ rs.length) :
    ∃ segs, calculateSegments dist start endP L cs rs = some segs ∧
      segs.length = (⌈dist start endP / (L : ℚ)⌉).toNat ∧
      (∀ (j : ℕ) (hj : j < segs.length),
        segs.get ⟨j, hj⟩ = buildSegment start endP L (dist start endP) j
          (segmentBucket dist start L ⌈dist start endP / (L : ℚ)⌉ cs rs j)) ∧
      (segs.map (fun s => s.framesCount)).sum = (cs.length : ℤ) := by
  have hn : 0 < ⌈dist start endP / (L : ℚ)⌉ :=
    Int.ceil_pos.mpr (div_pos hpos (by exact_mod_cast hL))
  obtain ⟨out, hout⟩ := assignLoop_some_of_bounds dist start L _ hn hL hd cs rs
    (List.replicate (⌈dist start endP / (L : ℚ)⌉).toNat []) hlen (by simp)
  have houtlen : out.length = (⌈dist start endP / (L : ℚ)⌉).toNat := by
    rw [assignLoop_length _ _ _ _ _ _ _ _ hout, List.length_replicate]
  refine ⟨buildLoop start endP L (dist start endP) 0 out, ?_, ?_, ?_, ?_⟩
  · simp only [calculateSegments]
    rw [if_neg (by omega), hout]
  · rw [buildLoop_length, houtlen]
  · intro j hj
    have hj0 : j < out.length := by
      rw [← buildLoop_length start endP L (dist start endP) 0 out]
      exact hj
    rw [buildLoop_get start endP L (dist start endP) out 0 j hj0 hj]
    have hgd : out.get ⟨j, hj0⟩ = out.getD j [] := by
      rw [List.getD_eq_getElem out [] hj0]
      rfl
    rw [hgd, assignLoop_getD _ _ _ _ _ _ _ _ hout j, getD_replicate, List.nil_append,
      Nat.zero_add]
  · have h2 := assignLoop_sum _ _ _ _ _ _ _ _ hout
    have h3 : ((List.replicate (⌈dist start endP / (L : ℚ)⌉).toNat ([] : List ℤ)).map
        (fun b => b.length)).sum = 0 := by simp [List.map_replicate]
    rw [h3, Nat.zero_add] at h2
    calc ((buildLoop start endP L (dist start endP) 0 out).map (fun s => s.framesCount)).sum
        = (out.map (fun b => (b.length : ℤ))).sum :=
          sum_framesCount_buildLoop start endP L (dist start endP) 0 out
      _ = Nat.cast ((out.map (fun b => b.length)).sum) := sum_map_length_intCast out
      _ = (cs.length : ℤ) := by rw [h2]

end RoadDetector

namespace RoadDetector

theorem buildSegment_of_pos (start endP : Coordinates) (L : ℤ) (td : ℚ) (i : ℕ)
    (bucket : List ℤ) (h : 0 < bucket.length) :
    buildSegment start endP L td i bucket =
      { segmentId := (i : ℤ) + 1
        framesCount := (bucket.length : ℤ)
        coveragePercentage := goRound (((bucket.sum : ℚ) / (bucket.length : ℚ) * 100) * 10) / 10
        hasData := true
        startCoordinate := lerp start endP (((i : ℚ) * (L : ℚ)) / td)
        endCoordinate := lerp start endP ((min (((i : ℚ) + 1) * (L : ℚ)) td) / td) } := by
  unfold buildSegment
  rw [if_pos h]

theorem buildSegment_of_nil (start endP : Coordinates) (L : ℤ) (td : ℚ) (i : ℕ) :
    buildSegment start endP L td i [] =
      { segmentId := (i : ℤ) + 1
        framesCount := 0
        coveragePercentage := 0
        hasData := false
        startCoordinate := ⟨0, 0⟩
        endCoordinate := ⟨0, 0⟩ } := by
  unfold buildSegment
  rw [if_neg (by simp)]

/-- C1: for endpoints at positive total distance and a positive segment length,
CalculateSegments succeeds and returns exactly ceil(totalDistance /
segmentLength) segments — the count depends only on the two endpoints and the
requested length, not on the frame data — and the segment ids are 1..N
contiguous with no gaps. -/
theorem calculateSegments_segment_count (dist : Coordinates → Coordinates → ℚ)
    (start endP : Coordinates) (L : ℤ) (cs : List Coordinates) (rs : List ℤ)
    (hd : ∀ c : Coordinates, 0 ≤ dist start c) (hpos : 0 < dist start endP) (hL : 0 < L)
    (hlen : cs.length ≤ rs.length) :
    ∃ segs, calculateSegments dist start endP L cs rs = some segs ∧
      (segs.length : ℤ) = ⌈dist start endP / (L : ℚ)⌉ ∧
      ∀ (i : ℕ) (hi : i < segs.length), (segs.get ⟨i, hi⟩).segmentId = (i : ℤ) + 1 := by
  obtain ⟨segs, hsegs, hlen2, hget, _⟩ :=
    calculateSegments_success dist start endP L cs rs hd hpos hL hlen
  have hn : 0 < ⌈dist start endP / (L : ℚ)⌉ :=
    Int.ceil_pos.mpr (div_pos hpos (by exact_mod_cast hL))
  refine ⟨segs, hsegs, ?_, ?_⟩
  · rw [hlen2]; omega
  · intro i hi
    rw [hget i hi, buildSegment_segmentId]

/-- Witness for C1: concrete endpoints 150 apart under flatDist, segment
length 100, a single frame. -/
theorem calculateSegments_segment_count_witness :
    (∀ c : Coordinates, 0 ≤ flatDist ⟨0, 0⟩ c) ∧ 0 < flatDist ⟨0, 0⟩ ⟨0, 150⟩ ∧
      0 < (100 : ℤ) ∧ ([(⟨0, 0⟩ : Coordinates)].length ≤ ([1] : List ℤ).length) ∧
      ∃ segs, calculateSegments flatDist ⟨0, 0⟩ ⟨0, 150⟩ 100 [⟨0, 0⟩] [1] = some segs ∧
        (segs.length : ℤ) = ⌈flatDist ⟨0, 0⟩ ⟨0, 150⟩ / ((100 : ℤ) : ℚ)⌉ ∧
        ∀ (i : ℕ) (hi : i < segs.length), (segs.get ⟨i, hi⟩).segmentId = (i : ℤ) + 1 := by
  have hd : ∀ c : Coordinates, 0 ≤ flatDist ⟨0, 0⟩ c := fun c => by
    simp only [flatDist]
    positivity
  have hpos : 0 < flatDist ⟨0, 0⟩ ⟨0, 150⟩ := by norm_num [flatDist]
  exact ⟨hd, hpos, by norm_num, by norm_num,
    calculateSegments_segment_count flatDist ⟨0, 0⟩ ⟨0, 150⟩ 100 [⟨0, 0⟩] [1]
      hd hpos (by norm_num) (by norm_num)⟩

theorem segmentBucket_length (dist : Coordinates → Coordinates → ℚ) (start : Coordinates)
    (L n : ℤ) (cs : List Coordinates) (rs : List ℤ) (j : ℕ) (hle : cs.length ≤ rs.length) :
    (segmentBucket dist start L n cs rs j).length =
      (cs.filter fun c => clampIdx dist start L n c = (j : ℤ)).length := by
  unfold segmentBucket
  rw [List.length_map]
  exact zip_filter_fst_length (fun c => decide (clampIdx dist start L n c = (j : ℤ))) cs rs hle

/-- C2: with frame coordinates obtained by interpolating one point per frame
result, every frame is assigned to the segment floor(distance / segmentLength)
clamped to numSegments - 1, and the per-segment frame counts sum to the number
of input frames. -/
theorem calculateSegments_frame_assignment (dist : Coordinates → Coordinates → ℚ)
    (start endP : Coordinates) (L : ℤ) (rs : List ℤ)
    (hd : ∀ c : Coordinates, 0 ≤ dist start c) (hpos : 0 < dist start endP) (hL : 0 < L) :
    ∃ segs, calculateSegments dist start endP L
        (interpolateCoordinates start endP (rs.length : ℤ)) rs = some segs ∧
      (segs.map (fun s => s.framesCount)).sum = (rs.length : ℤ) ∧
      ∀ (j : ℕ) (hj : j < segs.length),
        (segs.get ⟨j, hj⟩).framesCount =
          (((interpolateCoordinates start endP (rs.length : ℤ)).filter fun c =>
            min ⌊dist start c / (L : ℚ)⌋ (⌈dist start endP / (L : ℚ)⌉ - 1) = (j : ℤ)).length : ℤ) := by
  have hcseq : (interpolateCoordinates start endP (rs.length : ℤ)).length = rs.length := by
    rw [interpolateCoordinates_length]
    exact Int.toNat_natCast rs.length
  obtain ⟨segs, hsegs, hlen2, hget, hsum⟩ :=
    calculateSegments_success dist start endP L
      (interpolateCoordinates start endP (rs.length : ℤ)) rs hd hpos hL (le_of_eq hcseq)
  refine ⟨segs, hsegs, by rw [hsum, hcseq], ?_⟩
  intro j hj
  rw [hget j hj, buildSegment_framesCount,
    segmentBucket_length dist start L _ _ rs j (le_of_eq hcseq)]
  have hfc : (interpolateCoordinates start endP (rs.length : ℤ)).filter
      (fun c => clampIdx dist start L ⌈dist start endP / (L : ℚ)⌉ c = (j : ℤ)) =
      (interpolateCoordinates start endP (rs.length : ℤ)).filter
      (fun c => min ⌊dist start c / (L : ℚ)⌋ (⌈dist start endP / (L : ℚ)⌉ - 1) = (j : ℤ)) := by
    apply List.filter_congr
    intro c _
    rw [clampIdx_eq_min dist start L _ c (hd c) hL]
  rw [hfc]

/-- Witness for C2: five frames over a 50-long route under flatDist with
segment length 100. -/
theorem calculateSegments_frame_assignment_witness :
    (∀ c : Coordinates, 0 ≤ flatDist ⟨0, 0⟩ c) ∧ 0 < flatDist ⟨0, 0⟩ ⟨0, 50⟩ ∧
      0 < (100 : ℤ) ∧
      ∃ segs, calculateSegments flatDist ⟨0, 0⟩ ⟨0, 50⟩ 100
          (interpolateCoordinates ⟨0, 0⟩ ⟨0, 50⟩ (([1, 0, 1] : List ℤ).length : ℤ))
          [1, 0, 1] = some segs ∧
        (segs.map (fun s => s.framesCount)).sum = (([1, 0, 1] : List ℤ).length : ℤ) ∧
        ∀ (j : ℕ) (hj : j < segs.length),
          (segs.get ⟨j, hj⟩).framesCount =
            (((interpolateCoordinates ⟨0, 0⟩ ⟨0, 50⟩ (([1, 0, 1] : List ℤ).length : ℤ)).filter
              fun c => min ⌊flatDist ⟨0, 0⟩ c / ((100 : ℤ) : ℚ)⌋
                (⌈flatDist ⟨0, 0⟩ ⟨0, 50⟩ / ((100 : ℤ) : ℚ)⌉ - 1) = (j : ℤ)).length : ℤ) := by
  have hd : ∀ c : Coordinates, 0 ≤ flatDist ⟨0, 0⟩ c := fun c => by
    simp only [flatDist]
    positivity
  have hpos : 0 < flatDist ⟨0, 0⟩ ⟨0, 50⟩ := by norm_num [flatDist]
  exact ⟨hd, hpos, by norm_num,
    calculateSegments_frame_assignment flatDist ⟨0, 0⟩ ⟨0, 50⟩ 100 [1, 0, 1]
      hd hpos (by norm_num)⟩

/-- C3: a segment with a non-empty frame bucket reports the percentage of its
frames whose binary result is 1, on the 0-100 scale rounded to one decimal,
and has_data = true; a segment with an empty bucket reports 0 and
has_data = false.  The closing conjunct is the concrete five-frame
[1,0,1,0,1] single-segment scenario, whose coverage is exactly 60. -/
theorem calculateSegments_coverage (dist : Coordinates → Coordinates → ℚ)
    (start endP : Coordinates) (L : ℤ) (cs : List Coordinates) (rs : List ℤ)
    (hd : ∀ c : Coordinates, 0 ≤ dist start c) (hpos : 0 < dist start endP) (hL : 0 < L)
    (hlen : cs.length ≤ rs.length) (hbin : ∀ r ∈ rs, r = 0 ∨ r = 1) :
    (∃ segs, calculateSegments dist start endP L cs rs = some segs ∧
      ∀ (j : ℕ) (hj : j < segs.length),
        (segmentBucket dist start L ⌈dist start endP / (L : ℚ)⌉ cs rs j ≠ [] →
          (segs.get ⟨j, hj⟩).coveragePercentage =
            goRound ((((segmentBucket dist start L ⌈dist start endP / (L : ℚ)⌉ cs rs j).count 1 : ℚ) /
              ((segmentBucket dist start L ⌈dist start endP / (L : ℚ)⌉ cs rs j).length : ℚ) * 100) * 10) / 10 ∧
          (segs.get ⟨j, hj⟩).hasData = true) ∧
        (segmentBucket dist start L ⌈dist start endP / (L : ℚ)⌉ cs rs j = [] →
          (segs.get ⟨j, hj⟩).coveragePercentage = 0 ∧
          (segs.get ⟨j, hj⟩).hasData = false)) ∧
    (calculateSegments flatDist ⟨0, 0⟩ ⟨0, 50⟩ 100
        (interpolateCoordinates ⟨0, 0⟩ ⟨0, 50⟩ 5) [1, 0, 1, 0, 1]).map
      (fun segs => segs.map fun s => s.coveragePercentage) = some [60] := by
  constructor
  · obtain ⟨segs, hsegs, hlen2, hget, _⟩ :=
      calculateSegments_success dist start endP L cs rs hd hpos hL hlen
    refine ⟨segs, hsegs, ?_⟩
    intro j hj
    constructor
    · intro hne
      have hposlen : 0 < (segmentBucket dist start L ⌈dist start endP / (L : ℚ)⌉ cs rs j).length :=
        List.length_pos.mpr hne
      have hsum : ((segmentBucket dist start L ⌈dist start endP / (L : ℚ)⌉ cs rs j).sum : ℚ) =
          ((segmentBucket dist start L ⌈dist start endP / (L : ℚ)⌉ cs rs j).count 1 : ℚ) := by
        rw [sum_eq_count_one _ fun x hx =>
          hbin x (segmentBucket_subset dist start L _ cs rs j x hx)]
        push_cast
        ring
      rw [hget j hj, buildSegment_of_pos _ _ _ _ _ _ hposlen]
      exact ⟨by rw [← hsum], rfl⟩
    · intro hnil
      rw [hget j hj, hnil, buildSegment_of_nil]
      exact ⟨rfl, rfl⟩
  · rw [show interpolateCoordinates ⟨0, 0⟩ ⟨0, 50⟩ 5 =
        [⟨0, 0⟩, ⟨0, 25/2⟩, ⟨0, 25⟩, ⟨0, 75/2⟩, ⟨0, 50⟩] from by
      unfold interpolateCoordinates
      rw [if_neg (by norm_num), if_neg (by norm_num),
        show ((5:ℤ).toNat) = 5 from rfl, show List.range 5 = [0,1,2,3,4] from rfl]
      simp only [List.map_cons, List.map_nil, lerp]
      norm_num]
    have hfd : flatDist ⟨0, 0⟩ ⟨0, 50⟩ = 50 := by norm_num [flatDist]
    have hceil : ⌈flatDist ⟨0, 0⟩ ⟨0, 50⟩ / ((100:ℤ) : ℚ)⌉ = 1 := by
      rw [hfd]; norm_num [Int.ceil_eq_iff]
    have hc1 : clampIdx flatDist ⟨0, 0⟩ 100 1 ⟨0, 0⟩ = 0 := by
      simp only [clampIdx, goTrunc, flatDist]; norm_num [Int.floor_eq_iff, abs_of_nonneg]
    have hc2 : clampIdx flatDist ⟨0, 0⟩ 100 1 ⟨0, 25/2⟩ = 0 := by
      simp only [clampIdx, goTrunc, flatDist]; norm_num [Int.floor_eq_iff, abs_of_nonneg]
    have hc3 : clampIdx flatDist ⟨0, 0⟩ 100 1 ⟨0, 25⟩ = 0 := by
      simp only [clampIdx, goTrunc, flatDist]; norm_num [Int.floor_eq_iff, abs_of_nonneg]
    have hc4 : clampIdx flatDist ⟨0, 0⟩ 100 1 ⟨0, 75/2⟩ = 0 := by
      simp only [clampIdx, goTrunc, flatDist]; norm_num [Int.floor_eq_iff, abs_of_nonneg]
    have hc5 : clampIdx flatDist ⟨0, 0⟩ 100 1 ⟨0, 50⟩ = 0 := by
      simp only [clampIdx, goTrunc, flatDist]; norm_num [Int.floor_eq_iff, abs_of_nonneg]
    simp only [calculateSegments, hceil, assignLoop, hc1, hc2, hc3, hc4, hc5]
    norm_num [buildLoop, buildSegment, goRound, Int.floor_eq_iff]

/-- Witness for C3: the five-frame [1,0,1,0,1] scenario itself satisfies the
hypotheses. -/
theorem calculateSegments_coverage_witness :
    (∀ c : Coordinates, 0 ≤ flatDist ⟨0, 0⟩ c) ∧ 0 < flatDist ⟨0, 0⟩ ⟨0, 50⟩ ∧
      0 < (100 : ℤ) ∧
      (interpolateCoordinates ⟨0, 0⟩ ⟨0, 50⟩ 5).length ≤ ([1, 0, 1, 0, 1] : List ℤ).length ∧
      (∀ r ∈ ([1, 0, 1, 0, 1] : List ℤ), r = 0 ∨ r = 1) ∧
      (calculateSegments flatDist ⟨0, 0⟩ ⟨0, 50⟩ 100
          (interpolateCoordinates ⟨0, 0⟩ ⟨0, 50⟩ 5) [1, 0, 1, 0, 1]).map
        (fun segs => segs.map fun s => s.coveragePercentage) = some [60] := by
  have hd : ∀ c : Coordinates, 0 ≤ flatDist ⟨0, 0⟩ c := fun c => by
    simp only [flatDist]
    positivity
  have hpos : 0 < flatDist ⟨0, 0⟩ ⟨0, 50⟩ := by norm_num [flatDist]
  refine ⟨hd, hpos, by norm_num, by rw [interpolateCoordinates_length]; norm_num, by decide, ?_⟩
  exact (calculateSegments_coverage flatDist ⟨0, 0⟩ ⟨0, 50⟩ 100
    (interpolateCoordinates ⟨0, 0⟩ ⟨0, 50⟩ 5) [1, 0, 1, 0, 1]
    hd hpos (by norm_num) (by decide) (by decide)).2

end RoadDetector

namespace RoadDetector

theorem lerp_zero (s e : Coordinates) : lerp s e 0 = s := by
  simp [lerp]

theorem lerp_one (s e : Coordinates) : lerp s e 1 = e := by
  cases e with
  | mk a b =>
    simp only [lerp, Coordinates.mk.injEq]
    constructor <;> ring

theorem foldl_collect (segs : List SegmentInfo) : ∀ (n : ℤ) (l : List ℚ),
    segs.foldl (fun (acc : ℤ × List ℚ) s =>
      if s.hasData then (acc.1 + 1, acc.2 ++ [s.coveragePercentage]) else acc) (n, l) =
    (n + ((segs.filter fun s => s.hasData).length : ℤ),
      l ++ (segs.filter fun s => s.hasData).map fun s => s.coveragePercentage) := by
  induction segs with
  | nil => intro n l; simp
  | cons s rest ih =>
    intro n l
    by_cases h : s.hasData
    · simp only [List.foldl_cons, h, if_true, List.filter_cons_of_pos h, ih,
        List.map_cons, List.length_cons]
      refine Prod.ext ?_ ?_
      · simp only
        push_cast
        ring
      · simp
    · simp only [List.foldl_cons]
      rw [if_neg h, ih, List.filter_cons_of_neg (by simp [h])]

/-- C4: CalculateOverallStats averages coverage only over segments with
has_data = true, rounded to one decimal, returning exactly 0 when no segment
has data; segments_with_data counts the has_data segments and
total_distance_meters is the given distance rounded to two decimals. -/
theorem calculateOverallStats_spec (segments : List SegmentInfo) (totalFrames : ℤ)
    (totalDistance : ℚ) (segmentLength : ℤ) :
    (calculateOverallStats segments totalFrames totalDistance segmentLength).averageCoverage =
      (if (segments.filter fun s => s.hasData) = [] then 0 else
        goRound ((((segments.filter fun s => s.hasData).map fun s => s.coveragePercentage).sum /
          (((segments.filter fun s => s.hasData).length : ℚ))) * 10) / 10) ∧
    (calculateOverallStats segments totalFrames totalDistance segmentLength).segmentsWithData =
      ((segments.filter fun s => s.hasData).length : ℤ) ∧
    (calculateOverallStats segments totalFrames totalDistance segmentLength).totalDistanceMeters =
      goRound (totalDistance * 100) / 100 := by
  refine ⟨?_, ?_, ?_⟩
  · simp only [calculateOverallStats, foldl_collect segments 0 (([] : List ℚ))]
    by_cases h : (segments.filter fun s => s.hasData) = []
    · simp [h]
    · rw [if_neg h]
      have hlen : 0 < ((segments.filter fun s => s.hasData).map
          fun s => s.coveragePercentage).length := by
        rw [List.length_map]
        exact List.length_pos.mpr h
      simp only [List.nil_append, if_pos hlen]
      rw [List.length_map]
  · simp only [calculateOverallStats, foldl_collect segments 0 (([] : List ℚ))]
    simp
  · rfl

/-- C5: InterpolateCoordinates yields [] for n <= 0, [start] for n == 1, and
for n >= 2 yields n points at ratios i/(n-1) whose first element is exactly
start and whose last element is exactly end. -/
theorem interpolateCoordinates_spec (s e : Coordinates) (n : ℤ) :
    (n ≤ 0 → interpolateCoordinates s e n = []) ∧
    (n = 1 → interpolateCoordinates s e n = [s]) ∧
    (2 ≤ n →
      (interpolateCoordinates s e n).length = n.toNat ∧
      (∀ (i : ℕ) (hi : i < (interpolateCoordinates s e n).length),
        (interpolateCoordinates s e n).get ⟨i, hi⟩ =
          lerp s e ((i : ℚ) / ((n : ℚ) - 1))) ∧
      (interpolateCoordinates s e n).head? = some s ∧
      (interpolateCoordinates s e n).getLast? = some e) := by
  refine ⟨?_, ?_, ?_⟩
  · intro h
    unfold interpolateCoordinates
    rw [if_pos h]
  · intro h
    unfold interpolateCoordinates
    rw [if_neg (by omega), if_pos h]
  · intro h2
    have hne0 : ¬ n ≤ 0 := by omega
    have hne1 : ¬ n = 1 := by omega
    have hform : interpolateCoordinates s e n = (List.range n.toNat).map
        (fun i : ℕ => lerp s e ((i : ℚ) / ((n : ℚ) - 1))) := by
      unfold interpolateCoordinates
      rw [if_neg hne0, if_neg hne1]
    have hlen : (interpolateCoordinates s e n).length = n.toNat := by
      rw [hform, List.length_map, List.length_range]
    have hget : ∀ (i : ℕ) (hi : i < (interpolateCoordinates s e n).length),
        (interpolateCoordinates s e n).get ⟨i, hi⟩ =
          lerp s e ((i : ℚ) / ((n : ℚ) - 1)) := by
      intro i hi
      have hi2 : i < n.toNat := by rw [← hlen]; exact hi
      simp only [List.get_eq_getElem, hform, List.getElem_map, List.getElem_range]
    have hcastn : ((n.toNat : ℚ)) = (n : ℚ) := by
      exact_mod_cast congrArg (fun z : ℤ => (z : ℚ)) (Int.toNat_of_nonneg (by omega : (0:ℤ) ≤ n))
    refine ⟨hlen, hget, ?_, ?_⟩
    · obtain ⟨k, hk⟩ : ∃ k, n.toNat = k + 1 := ⟨n.toNat - 1, by omega⟩
      rw [hform, hk, List.range_succ_eq_map, List.map_cons, List.head?_cons]
      norm_num [lerp_zero]
    · have hb : n.toNat - 1 < ((List.range n.toNat).map
          (fun i : ℕ => lerp s e ((i : ℚ) / ((n : ℚ) - 1)))).length := by
        rw [List.length_map, List.length_range]
        omega
      rw [hform, List.getLast?_eq_getElem?]
      simp only [List.length_map, List.length_range]
      rw [List.getElem?_eq_getElem hb]
      simp only [List.getElem_map, List.getElem_range]
      have hcast : ((n.toNat - 1 : ℕ) : ℚ) = (n : ℚ) - 1 := by
        rw [Nat.cast_sub (by omega : 1 ≤ n.toNat), hcastn, Nat.cast_one]
      rw [hcast, div_self (by
        have h2q : (2 : ℚ) ≤ (n : ℚ) := by exact_mod_cast h2
        linarith), lerp_one]

/-- Witness for C5 at start (0,0), end (0,3), n = 4. -/
theorem interpolateCoordinates_spec_witness :
    2 ≤ (4 : ℤ) ∧
      (interpolateCoordinates ⟨0, 0⟩ ⟨0, 3⟩ 4).head? = some ⟨0, 0⟩ ∧
      (interpolateCoordinates ⟨0, 0⟩ ⟨0, 3⟩ 4).getLast? = some ⟨0, 3⟩ :=
  ⟨by norm_num,
    ((interpolateCoordinates_spec ⟨0, 0⟩ ⟨0, 3⟩ 4).2.2 (by norm_num)).2.2.1,
    ((interpolateCoordinates_spec ⟨0, 0⟩ ⟨0, 3⟩ 4).2.2 (by norm_num)).2.2.2⟩

/-- C6 (amended): a segment whose bucket is non-empty carries the interpolated
coordinates at ratios i*L/total and min((i+1)*L, total)/total; a segment with
an empty bucket is retained with frames_count = 0, coverage 0, has_data =
false, but its coordinates are the Go zero value (0,0)-(0,0), not the
interpolated ones. -/
theorem calculateSegments_segment_coords (dist : Coordinates → Coordinates → ℚ)
    (start endP : Coordinates) (L : ℤ) (cs : List Coordinates) (rs : List ℤ)
    (hd : ∀ c : Coordinates, 0 ≤ dist start c) (hpos : 0 < dist start endP) (hL : 0 < L)
    (hlen : cs.length ≤ rs.length) :
    ∃ segs, calculateSegments dist start endP L cs rs = some segs ∧
      ∀ (j : ℕ) (hj : j < segs.length),
        (segmentBucket dist start L ⌈dist start endP / (L : ℚ)⌉ cs rs j ≠ [] →
          (segs.get ⟨j, hj⟩).startCoordinate =
            lerp start endP (((j : ℚ) * (L : ℚ)) / dist start endP) ∧
          (segs.get ⟨j, hj⟩).endCoordinate =
            lerp start endP ((min (((j : ℚ) + 1) * (L : ℚ)) (dist start endP)) /
              dist start endP)) ∧
        (segmentBucket dist start L ⌈dist start endP / (L : ℚ)⌉ cs rs j = [] →
          (segs.get ⟨j, hj⟩).framesCount = 0 ∧
          (segs.get ⟨j, hj⟩).coveragePercentage = 0 ∧
          (segs.get ⟨j, hj⟩).hasData = false ∧
          (segs.get ⟨j, hj⟩).startCoordinate = ⟨0, 0⟩ ∧
          (segs.get ⟨j, hj⟩).endCoordinate = ⟨0, 0⟩) := by
  obtain ⟨segs, hsegs, hlen2, hget, _⟩ :=
    calculateSegments_success dist start endP L cs rs hd hpos hL hlen
  refine ⟨segs, hsegs, ?_⟩
  intro j hj
  constructor
  · intro hne
    have hposlen : 0 < (segmentBucket dist start L ⌈dist start endP / (L : ℚ)⌉ cs rs j).length :=
      List.length_pos.mpr hne
    rw [hget j hj, buildSegment_of_pos _ _ _ _ _ _ hposlen]
    exact ⟨rfl, rfl⟩
  · intro hnil
    rw [hget j hj, hnil, buildSegment_of_nil]
    exact ⟨rfl, rfl, rfl, rfl, rfl⟩

/-- Counterexample to C6 as stated: with flatDist, endpoints (1,1)-(1,201),
segment length 100 and a single frame at the start, the second segment has an
empty bucket and its start coordinate is the zero value (0,0), not the
interpolated point (1,101) the claim requires. -/
theorem calculateSegments_segment_coords_cex :
    (calculateSegments flatDist ⟨1, 1⟩ ⟨1, 201⟩ 100 [⟨1, 1⟩] [1]).map
      (fun segs => segs.map fun s => s.startCoordinate) = some [⟨1, 1⟩, ⟨0, 0⟩] ∧
    (⟨0, 0⟩ : Coordinates) ≠
      lerp ⟨1, 1⟩ ⟨1, 201⟩ (((1 : ℚ) * ((100 : ℤ) : ℚ)) / flatDist ⟨1, 1⟩ ⟨1, 201⟩) := by
  have hfd : flatDist ⟨1, 1⟩ ⟨1, 201⟩ = 200 := by norm_num [flatDist]
  constructor
  · have hceil : ⌈flatDist ⟨1, 1⟩ ⟨1, 201⟩ / ((100 : ℤ) : ℚ)⌉ = 2 := by
      rw [hfd]; norm_num [Int.ceil_eq_iff]
    have hc1 : clampIdx flatDist ⟨1, 1⟩ 100 2 ⟨1, 1⟩ = 0 := by
      simp only [clampIdx, goTrunc, flatDist]
      norm_num [Int.floor_eq_iff, abs_of_nonneg]
    simp only [calculateSegments, hceil, assignLoop, hc1]
    norm_num [buildLoop, buildSegment, hfd, goRound, Int.floor_eq_iff, lerp]
  · rw [hfd]
    norm_num [lerp, Coordinates.mk.injEq]

/-- Witness for C6 (amended) at the same concrete input as the
counterexample. -/
theorem calculateSegments_segment_coords_witness :
    (∀ c : Coordinates, 0 ≤ flatDist ⟨1, 1⟩ c) ∧ 0 < flatDist ⟨1, 1⟩ ⟨1, 201⟩ ∧
      0 < (100 : ℤ) ∧ ([(⟨1, 1⟩ : Coordinates)].length ≤ ([1] : List ℤ).length) ∧
      ∃ segs, calculateSegments flatDist ⟨1, 1⟩ ⟨1, 201⟩ 100 [⟨1, 1⟩] [1] = some segs ∧
        ∀ (j : ℕ) (hj : j < segs.length),
          (segmentBucket flatDist ⟨1, 1⟩ 100 ⌈flatDist ⟨1, 1⟩ ⟨1, 201⟩ / ((100 : ℤ) : ℚ)⌉
              [⟨1, 1⟩] [1] j ≠ [] →
            (segs.get ⟨j, hj⟩).startCoordinate =
              lerp ⟨1, 1⟩ ⟨1, 201⟩ (((j : ℚ) * ((100 : ℤ) : ℚ)) / flatDist ⟨1, 1⟩ ⟨1, 201⟩) ∧
            (segs.get ⟨j, hj⟩).endCoordinate =
              lerp ⟨1, 1⟩ ⟨1, 201⟩ ((min (((j : ℚ) + 1) * ((100 : ℤ) : ℚ))
                (flatDist ⟨1, 1⟩ ⟨1, 201⟩)) / flatDist ⟨1, 1⟩ ⟨1, 201⟩)) ∧
          (segmentBucket flatDist ⟨1, 1⟩ 100 ⌈flatDist ⟨1, 1⟩ ⟨1, 201⟩ / ((100 : ℤ) : ℚ)⌉
              [⟨1, 1⟩] [1] j = [] →
            (segs.get ⟨j, hj⟩).framesCount = 0 ∧
            (segs.get ⟨j, hj⟩).coveragePercentage = 0 ∧
            (segs.get ⟨j, hj⟩).hasData = false ∧
            (segs.get ⟨j, hj⟩).startCoordinate = ⟨0, 0⟩ ∧
            (segs.get ⟨j, hj⟩).endCoordinate = ⟨0, 0⟩) := by
  have hd : ∀ c : Coordinates, 0 ≤ flatDist ⟨1, 1⟩ c := fun c => by
    simp only [flatDist]
    positivity
  have hpos : 0 < flatDist ⟨1, 1⟩ ⟨1, 201⟩ := by norm_num [flatDist]
  exact ⟨hd, hpos, by norm_num, by norm_num,
    calculateSegments_segment_coords flatDist ⟨1, 1⟩ ⟨1, 201⟩ 100 [⟨1, 1⟩] [1]
      hd hpos (by norm_num) (by norm_num)⟩

/-- C7 (amended): with identical endpoints (distance zero) CalculateSegments
returns num_segments = 0 and the empty segment sequence when the frame list is
empty, but with any non-empty frame list the bucket-assignment loop indexes
segmentFrames[-1], an out-of-bounds access (a Go runtime panic, modelled as
none). -/
theorem calculateSegments_zero_distance (dist : Coordinates → Coordinates → ℚ)
    (start endP : Coordinates) (L : ℤ) (rs : List ℤ)
    (h0 : dist start endP = 0) :
    calculateSegments dist start endP L [] rs = some [] ∧
    ∀ (c : Coordinates) (cs : List Coordinates) (rs2 : List ℤ),
      calculateSegments dist start endP L (c :: cs) rs2 = none := by
  have hceil : ⌈dist start endP / (L : ℚ)⌉ = 0 := by rw [h0]; simp
  constructor
  · simp only [calculateSegments, hceil]
    norm_num [assignLoop, buildLoop]
  · intro c cs rs2
    simp only [calculateSegments, hceil]
    cases rs2 with
    | nil => norm_num [assignLoop]
    | cons r rs3 => simp [assignLoop]

/-- Counterexample to C7 as stated: identical endpoints with one frame produce
an out-of-bounds bucket access (none), not a normal return. -/
theorem calculateSegments_zero_distance_cex :
    flatDist ⟨55, 37⟩ ⟨55, 37⟩ = 0 ∧
    calculateSegments flatDist ⟨55, 37⟩ ⟨55, 37⟩ 100 [⟨55, 37⟩] [0] = none := by
  have h0 : flatDist ⟨55, 37⟩ ⟨55, 37⟩ = 0 := by norm_num [flatDist]
  have hceil : ⌈flatDist ⟨55, 37⟩ ⟨55, 37⟩ / ((100 : ℤ) : ℚ)⌉ = 0 := by rw [h0]; simp
  refine ⟨h0, ?_⟩
  simp only [calculateSegments, hceil]
  simp [assignLoop]

/-- Witness for C7 (amended) at a concrete identical-endpoint input. -/
theorem calculateSegments_zero_distance_witness :
    flatDist ⟨1, 2⟩ ⟨1, 2⟩ = 0 ∧
      calculateSegments flatDist ⟨1, 2⟩ ⟨1, 2⟩ 100 [] [3] = some [] ∧
      calculateSegments flatDist ⟨1, 2⟩ ⟨1, 2⟩ 100 [⟨1, 2⟩] [3] = none := by
  have h0 : flatDist ⟨1, 2⟩ ⟨1, 2⟩ = 0 := by norm_num [flatDist]
  exact ⟨h0, (calculateSegments_zero_distance flatDist ⟨1, 2⟩ ⟨1, 2⟩ 100 [3] h0).1,
    (calculateSegments_zero_distance flatDist ⟨1, 2⟩ ⟨1, 2⟩ 100 [3] h0).2 ⟨1, 2⟩ [] [3]⟩

end RoadDetector

namespace RoadDetector

theorem zipSegmentsLoop_length (a b c d : ℚ) (n : ℕ) :
    ∀ (i0 : ℕ) (l : List PySegment),
    (zipSegmentsLoop a b c d n i0 l).length = l.length := by
  intro i0 l
  induction l generalizing i0 with
  | nil => rfl
  | cons seg rest ih => simp [zipSegmentsLoop, ih]

theorem zipSegmentsLoop_get (a b c d : ℚ) (n : ℕ) :
    ∀ (l : List PySegment) (i0 j : ℕ) (hj : j < l.length)
      (hj2 : j < (zipSegmentsLoop a b c d n i0 l).length),
    (zipSegmentsLoop a b c d n i0 l).get ⟨j, hj2⟩ =
      zipSegmentBuild a b c d n (i0 + j) (l.get ⟨j, hj⟩) := by
  intro l
  induction l with
  | nil => intro i0 j hj _; exact absurd hj (by simp)
  | cons seg rest ih =>
    intro i0 j hj hj2
    cases j with
    | zero => rfl
    | succ j =>
      have hjs : j < rest.length := by simpa using hj
      have hjs2 : j < (zipSegmentsLoop a b c d n (i0 + 1) rest).length := by
        rw [zipSegmentsLoop_length]; exact hjs
      have hstep := ih (i0 + 1) j hjs hjs2
      simp only [zipSegmentsLoop, List.get_cons_succ]
      rw [hstep]
      congr 1
      omega

/-- C8 (amended): in the archive path the per-segment coordinates are
re-derived with progress = i/len and endProgress = (i+1)/len (overridden to
1.0 on the last segment), so for two or more parsed segments the first segment
starts exactly at the route start and the last ends exactly at the route end;
for a single parsed segment the code overrides progress to 0.5, so that
segment starts at the route midpoint, not at the route start. -/
theorem processZipArchive_segment_coords (sLat sLon eLat eLon segLen : ℚ)
    (py : PyResults) (h2 : 2 ≤ py.segments.length) :
    ((processZipArchive sLat sLon eLat eLon segLen py).segments.head?.map
      fun s => s.startCoordinate) = some ⟨sLat, sLon⟩ ∧
    ((processZipArchive sLat sLon eLat eLon segLen py).segments.getLast?.map
      fun s => s.endCoordinate) = some ⟨eLat, eLon⟩ ∧
    ∀ (j : ℕ) (hj : j < (processZipArchive sLat sLon eLat eLon segLen py).segments.length),
      ((processZipArchive sLat sLon eLat eLon segLen py).segments.get ⟨j, hj⟩).startCoordinate =
        ⟨sLat + (eLat - sLat) * ((j : ℚ) / (py.segments.length : ℚ)),
          sLon + (eLon - sLon) * ((j : ℚ) / (py.segments.length : ℚ))⟩ ∧
      ((processZipArchive sLat sLon eLat eLon segLen py).segments.get ⟨j, hj⟩).endCoordinate =
        (if j = py.segments.length - 1 then (⟨eLat, eLon⟩ : Coordinates) else
          ⟨sLat + (eLat - sLat) * (((j : ℚ) + 1) / (py.segments.length : ℚ)),
            sLon + (eLon - sLon) * (((j : ℚ) + 1) / (py.segments.length : ℚ))⟩) := by
  have hn1 : py.segments.length ≠ 1 := by omega
  have hlen : (processZipArchive sLat sLon eLat eLon segLen py).segments.length =
      py.segments.length := by
    simp only [processZipArchive]
    exact zipSegmentsLoop_length sLat sLon eLat eLon py.segments.length 0 py.segments
  have hget : ∀ (j : ℕ) (hj0 : j < py.segments.length)
      (hj : j < (processZipArchive sLat sLon eLat eLon segLen py).segments.length),
      (processZipArchive sLat sLon eLat eLon segLen py).segments.get ⟨j, hj⟩ =
        zipSegmentBuild sLat sLon eLat eLon py.segments.length j
          (py.segments.get ⟨j, hj0⟩) := by
    intro j hj0 hj
    have hstep := zipSegmentsLoop_get sLat sLon eLat eLon py.segments.length py.segments 0 j hj0
      (by rw [zipSegmentsLoop_length]; exact hj0)
    rw [Nat.zero_add] at hstep
    exact hstep
  have hmain : ∀ (j : ℕ)
      (hj : j < (processZipArchive sLat sLon eLat eLon segLen py).segments.length),
      ((processZipArchive sLat sLon eLat eLon segLen py).segments.get ⟨j, hj⟩).startCoordinate =
        ⟨sLat + (eLat - sLat) * ((j : ℚ) / (py.segments.length : ℚ)),
          sLon + (eLon - sLon) * ((j : ℚ) / (py.segments.length : ℚ))⟩ ∧
      ((processZipArchive sLat sLon eLat eLon segLen py).segments.get ⟨j, hj⟩).endCoordinate =
        (if j = py.segments.length - 1 then (⟨eLat, eLon⟩ : Coordinates) else
          ⟨sLat + (eLat - sLat) * (((j : ℚ) + 1) / (py.segments.length : ℚ)),
            sLon + (eLon - sLon) * (((j : ℚ) + 1) / (py.segments.length : ℚ))⟩) := by
    intro j hj
    have hj0 : j < py.segments.length := by rw [← hlen]; exact hj
    rw [hget j hj0 hj]
    constructor
    · simp only [zipSegmentBuild]
      rw [if_neg hn1]
    · simp only [zipSegmentBuild]
      by_cases hlast : j = py.segments.length - 1
      · rw [if_pos hlast, if_pos hlast]
        simp only [Coordinates.mk.injEq]
        constructor <;> ring
      · rw [if_neg hlast, if_neg hlast]
  refine ⟨?_, ?_, hmain⟩
  · have hpos : 0 < (processZipArchive sLat sLon eLat eLon segLen py).segments.length := by
      omega
    rw [List.head?_eq_getElem?, List.getElem?_eq_getElem hpos]
    have h0x : ((processZipArchive sLat sLon eLat eLon segLen py).segments.get
        ⟨0, hpos⟩).startCoordinate = (⟨sLat, sLon⟩ : Coordinates) := by
      rw [(hmain 0 hpos).1]
      norm_num [Coordinates.mk.injEq]
    exact congrArg (fun c : Coordinates => some c) h0x
  · have hpos : (processZipArchive sLat sLon eLat eLon segLen py).segments.length - 1 <
        (processZipArchive sLat sLon eLat eLon segLen py).segments.length := by
      omega
    rw [List.getLast?_eq_getElem?, List.getElem?_eq_getElem hpos]
    have hlx : ((processZipArchive sLat sLon eLat eLon segLen py).segments.get
        ⟨(processZipArchive sLat sLon eLat eLon segLen py).segments.length - 1,
          hpos⟩).endCoordinate = (⟨eLat, eLon⟩ : Coordinates) := by
      rw [(hmain _ hpos).2, if_pos (by omega)]
    exact congrArg (fun c : Coordinates => some c) hlx

/-- Counterexample to C8 as stated: a bundle with a single pre-aggregated
segment on route (0,0)-(0,2) yields a first segment that starts at the
midpoint (0,1), not at the route start (0,0). -/
theorem processZipArchive_single_segment_cex :
    ((processZipArchive 0 0 0 2 10
      ⟨"ok", ⟨5, 7, 5, 1, 1, 60⟩, [⟨1, 5, 60, true⟩], ⟨0, 0⟩, ⟨0, 2⟩⟩).segments.head?.map
      fun s => s.startCoordinate) = some ⟨0, 1⟩ ∧
    (⟨0, 1⟩ : Coordinates) ≠ (⟨0, 0⟩ : Coordinates) := by
  constructor
  · simp only [processZipArchive, zipSegmentsLoop, zipSegmentBuild, List.head?_cons]
    norm_num [Coordinates.mk.injEq]
  · simp only [ne_eq, Coordinates.mk.injEq]
    norm_num

/-- Witness for C8 (amended): scenario D — three pre-aggregated segments on
route (0,0)-(0,3); segment 0 starts exactly at (0,0) and segment 2 ends
exactly at (0,3). -/
theorem processZipArchive_segment_coords_witness :
    2 ≤ ((⟨"ok", ⟨5, 7, 5, 3, 1, 60⟩,
        [⟨1, 5, 60, true⟩, ⟨2, 0, 0, false⟩, ⟨3, 0, 0, false⟩],
        ⟨0, 0⟩, ⟨0, 3⟩⟩ : PyResults)).segments.length ∧
    ((processZipArchive 0 0 0 3 10
      ⟨"ok", ⟨5, 7, 5, 3, 1, 60⟩, [⟨1, 5, 60, true⟩, ⟨2, 0, 0, false⟩, ⟨3, 0, 0, false⟩],
        ⟨0, 0⟩, ⟨0, 3⟩⟩).segments.head?.map fun s => s.startCoordinate) = some ⟨0, 0⟩ ∧
    ((processZipArchive 0 0 0 3 10
      ⟨"ok", ⟨5, 7, 5, 3, 1, 60⟩, [⟨1, 5, 60, true⟩, ⟨2, 0, 0, false⟩, ⟨3, 0, 0, false⟩],
        ⟨0, 0⟩, ⟨0, 3⟩⟩).segments.getLast?.map fun s => s.endCoordinate) = some ⟨0, 3⟩ :=
  ⟨by decide,
    (processZipArchive_segment_coords 0 0 0 3 10
      ⟨"ok", ⟨5, 7, 5, 3, 1, 60⟩, [⟨1, 5, 60, true⟩, ⟨2, 0, 0, false⟩, ⟨3, 0, 0, false⟩],
        ⟨0, 0⟩, ⟨0, 3⟩⟩ (by decide)).1,
    (processZipArchive_segment_coords 0 0 0 3 10
      ⟨"ok", ⟨5, 7, 5, 3, 1, 60⟩, [⟨1, 5, 60, true⟩, ⟨2, 0, 0, false⟩, ⟨3, 0, 0, false⟩],
        ⟨0, 0⟩, ⟨0, 3⟩⟩ (by decide)).2.1⟩

/-- C9 (amended): assembling a route from a parsed bundle passes every
overall_stats value and every per-segment statistic through unchanged, with
the one exception that the counterexample forces: segment_length_meters is set
from the segmentLength argument of the request, not from the bundle value. -/
theorem processZipArchive_roundtrip (sLat sLon eLat eLon segLen : ℚ) (py : PyResults) :
    (processZipArchive sLat sLon eLat eLon segLen py).overallStats.totalFrames =
      py.overallStats.totalFrames ∧
    (processZipArchive sLat sLon eLat eLon segLen py).overallStats.totalDistanceMeters =
      py.overallStats.totalDistanceMeters ∧
    (processZipArchive sLat sLon eLat eLon segLen py).overallStats.totalSegments =
      py.overallStats.totalSegments ∧
    (processZipArchive sLat sLon eLat eLon segLen py).overallStats.segmentsWithData =
      py.overallStats.segmentsWithData ∧
    (processZipArchive sLat sLon eLat eLon segLen py).overallStats.averageCoverage =
      py.overallStats.averageCoverage ∧
    (processZipArchive sLat sLon eLat eLon segLen py).overallStats.segmentLengthMeters =
      segLen ∧
    (processZipArchive sLat sLon eLat eLon segLen py).segments.length =
      py.segments.length ∧
    ∀ (j : ℕ) (hj1 : j < (processZipArchive sLat sLon eLat eLon segLen py).segments.length)
      (hj2 : j < py.segments.length),
      ((processZipArchive sLat sLon eLat eLon segLen py).segments.get ⟨j, hj1⟩).segmentId =
        (py.segments.get ⟨j, hj2⟩).segmentId ∧
      ((processZipArchive sLat sLon eLat eLon segLen py).segments.get ⟨j, hj1⟩).framesCount =
        (py.segments.get ⟨j, hj2⟩).framesCount ∧
      ((processZipArchive sLat sLon eLat eLon segLen py).segments.get
        ⟨j, hj1⟩).coveragePercentage = (py.segments.get ⟨j, hj2⟩).coveragePercentage ∧
      ((processZipArchive sLat sLon eLat eLon segLen py).segments.get ⟨j, hj1⟩).hasData =
        (py.segments.get ⟨j, hj2⟩).hasData := by
  have hlen : (processZipArchive sLat sLon eLat eLon segLen py).segments.length =
      py.segments.length := by
    simp only [processZipArchive]
    exact zipSegmentsLoop_length sLat sLon eLat eLon py.segments.length 0 py.segments
  refine ⟨rfl, rfl, rfl, rfl, rfl, rfl, hlen, ?_⟩
  intro j hj1 hj2
  have hstep := zipSegmentsLoop_get sLat sLon eLat eLon py.segments.length py.segments 0 j hj2
    (by rw [zipSegmentsLoop_length]; exact hj2)
  rw [Nat.zero_add] at hstep
  have hget : (processZipArchive sLat sLon eLat eLon segLen py).segments.get ⟨j, hj1⟩ =
      zipSegmentBuild sLat sLon eLat eLon py.segments.length j (py.segments.get ⟨j, hj2⟩) :=
    hstep
  rw [hget]
  exact ⟨rfl, rfl, rfl, rfl⟩

/-- Counterexample to C9 as stated: a bundle reporting segment_length_meters =
5, assembled for a request with segmentLength = 10, carries 10 taken from the
request, not 5 from the bundle. -/
theorem processZipArchive_roundtrip_cex :
    (processZipArchive 0 0 0 3 10
      ⟨"ok", ⟨5, 7, 5, 1, 1, 60⟩, [⟨1, 5, 60, true⟩], ⟨0, 0⟩,
        ⟨0, 3⟩⟩).overallStats.segmentLengthMeters = 10 ∧
    ((⟨"ok", ⟨5, 7, 5, 1, 1, 60⟩, [⟨1, 5, 60, true⟩], ⟨0, 0⟩,
      ⟨0, 3⟩⟩ : PyResults).overallStats.segmentLengthMeters : ℚ) = 5 ∧
    (10 : ℚ) ≠ (5 : ℚ) :=
  ⟨rfl, by norm_num, by norm_num⟩

/-- Witness for C9 (amended) at a concrete bundle and request. -/
theorem processZipArchive_roundtrip_witness :
    (processZipArchive 0 0 0 3 10
      ⟨"ok", ⟨5, 7, 5, 1, 1, 60⟩, [⟨1, 5, 60, true⟩], ⟨0, 0⟩,
        ⟨0, 3⟩⟩).overallStats.totalFrames = 5 ∧
    (processZipArchive 0 0 0 3 10
      ⟨"ok", ⟨5, 7, 5, 1, 1, 60⟩, [⟨1, 5, 60, true⟩], ⟨0, 0⟩,
        ⟨0, 3⟩⟩).overallStats.segmentLengthMeters = 10 ∧
    ((processZipArchive 0 0 0 3 10
      ⟨"ok", ⟨5, 7, 5, 1, 1, 60⟩, [⟨1, 5, 60, true⟩], ⟨0, 0⟩, ⟨0, 3⟩⟩).segments.get
        ⟨0, by decide⟩).framesCount = 5 := by
  have h := processZipArchive_roundtrip 0 0 0 3 10
    ⟨"ok", ⟨5, 7, 5, 1, 1, 60⟩, [⟨1, 5, 60, true⟩], ⟨0, 0⟩, ⟨0, 3⟩⟩
  refine ⟨by rw [h.1], h.2.2.2.2.2.1, ?_⟩
  rw [(h.2.2.2.2.2.2.2 0 (by decide) (by decide)).2.1]
  rfl

/-- C10: CalculateSegments reads frameResults[i] for every index i of
frameCoords, so it can only return normally when frameResults is at least as
long as frameCoords; the caller processGeographicAnalysis interpolates exactly
len(frameResults) coordinates, so at that call site the two lists have equal
length and every frameResults[i] read is in bounds. -/
theorem calculateSegments_caller_lengths :
    (∀ (dist : Coordinates → Coordinates → ℚ) (start endP : Coordinates) (L : ℤ)
      (cs : List Coordinates) (rs : List ℤ) (segs : List SegmentInfo),
      calculateSegments dist start endP L cs rs = some segs → cs.length ≤ rs.length) ∧
    (∀ (start endP : Coordinates) (rs : List ℤ),
      (interpolateCoordinates start endP (rs.length : ℤ)).length = rs.length) ∧
    (∀ (start endP : Coordinates) (rs : List ℤ) (i : ℕ),
      i < (interpolateCoordinates start endP (rs.length : ℤ)).length → i < rs.length) := by
  have hilen : ∀ (start endP : Coordinates) (rs : List ℤ),
      (interpolateCoordinates start endP (rs.length : ℤ)).length = rs.length := by
    intro start endP rs
    rw [interpolateCoordinates_length]
    exact Int.toNat_natCast rs.length
  refine ⟨?_, hilen, ?_⟩
  · intro dist start endP L cs rs segs h
    simp only [calculateSegments] at h
    by_cases hneg : ⌈dist start endP / (L : ℚ)⌉ < 0
    · rw [if_pos hneg] at h
      exact absurd h (by simp)
    · rw [if_neg hneg] at h
      cases hA : assignLoop dist start L ⌈dist start endP / (L : ℚ)⌉ cs rs
          (List.replicate (⌈dist start endP / (L : ℚ)⌉).toNat []) with
      | none => rw [hA] at h; exact absurd h (by simp)
      | some out => exact assignLoop_length_le _ _ _ _ _ _ _ _ hA
  · intro start endP rs i hi
    rw [hilen start endP rs] at hi
    exact hi

/-- Witness for C10: the necessity direction applied to a successful concrete
run, and the caller-side length equality at a concrete frame-result list. -/
theorem calculateSegments_caller_lengths_witness :
    ([(⟨0, 0⟩ : Coordinates)].length ≤ ([1, 0] : List ℤ).length) ∧
    (interpolateCoordinates ⟨0, 0⟩ ⟨0, 3⟩ (([1, 0] : List ℤ).length : ℤ)).length =
      ([1, 0] : List ℤ).length := by
  have hd : ∀ c : Coordinates, 0 ≤ flatDist ⟨0, 0⟩ c := fun c => by
    simp only [flatDist]
    positivity
  have hpos : 0 < flatDist ⟨0, 0⟩ ⟨0, 50⟩ := by norm_num [flatDist]
  obtain ⟨segs, hsegs, _, _, _⟩ := calculateSegments_success flatDist ⟨0, 0⟩ ⟨0, 50⟩ 100
    [⟨0, 0⟩] [1, 0] hd hpos (by norm_num) (by norm_num)
  exact ⟨calculateSegments_caller_lengths.1 flatDist ⟨0, 0⟩ ⟨0, 50⟩ 100 [⟨0, 0⟩] [1, 0]
    segs hsegs, calculateSegments_caller_lengths.2.1 ⟨0, 0⟩ ⟨0, 3⟩ [1, 0]⟩

end RoadDetector
